/-
Verification of the English Accent Classifier application.

Shallow embedding of the repository's Python modules:
  * `src/english_accent_classifier/config.py`           (Config)
  * `src/english_accent_classifier/exceptions.py`       (error taxonomy)
  * `src/english_accent_classifier/audio_processor.py`  (AudioProcessor)
  * `src/english_accent_classifier/accent_classifier.py`(AccentClassifier)
  * `src/english_accent_classifier/gui.py`              (AccentClassifierGUI)

Python values (YAML scalars and nested dicts) are embedded as the inductive
type `Value`; Python dicts as insertion-ordered association lists; the
filesystem as a map from paths to `Option Nat` (size of the file when it
exists).  External collaborators (yt-dlp, pydub, the SpeechBrain model) are
oracles supplied as explicit parameters.  Fallible Python code returns
`Except`; a `try/except/finally` block is translated by explicit case
analysis on the body's outcome.
-/
import Mathlib

namespace AccentApp

/-- Embedding of the Python/YAML values stored in the configuration:
scalars (`None`, booleans, integers, strings) and nested dicts.  A dict is
an insertion-ordered association list with (per the Python dict invariant)
pairwise distinct keys. -/
inductive Value where
  | null : Value
  | bool (b : Bool) : Value
  | int (n : Int) : Value
  | str (s : String) : Value
  | dict (entries : List (String × Value)) : Value
  deriving Repr

/-- Structural decidable equality for `Value` (the automatic derivation does
not handle the nested `List (String × Value)` occurrence). -/
def Value.beq : Value → Value → Bool
  | .null, .null => true
  | .bool b₁, .bool b₂ => b₁ == b₂
  | .int n₁, .int n₂ => n₁ == n₂
  | .str s₁, .str s₂ => s₁ == s₂
  | .dict es₁, .dict es₂ => beqEntries es₁ es₂
  | _, _ => false
where
  /-- Pointwise equality of entry lists. -/
  beqEntries : List (String × Value) → List (String × Value) → Bool
  | [], [] => true
  | (k₁, v₁) :: t₁, (k₂, v₂) :: t₂ => k₁ == k₂ && Value.beq v₁ v₂ && beqEntries t₁ t₂
  | _, _ => false

mutual
theorem Value.beq_eq : ∀ {v w : Value}, Value.beq v w = true → v = w
  | .null, .null, _ => rfl
  | .bool _, .bool _, h => by
      simp only [Value.beq, beq_iff_eq] at h; exact congrArg Value.bool h
  | .int _, .int _, h => by
      simp only [Value.beq, beq_iff_eq] at h; exact congrArg Value.int h
  | .str _, .str _, h => by
      simp only [Value.beq, beq_iff_eq] at h; exact congrArg Value.str h
  | .dict _, .dict _, h => congrArg Value.dict (Value.beqEntries_eq h)

theorem Value.beqEntries_eq : ∀ {es fs : List (String × Value)},
    Value.beq.beqEntries es fs = true → es = fs
  | [], [], _ => rfl
  | (k₁, v₁) :: t₁, (k₂, v₂) :: t₂, h => by
      simp only [Value.beq.beqEntries, Bool.and_eq_true, beq_iff_eq] at h
      obtain ⟨⟨hk, hv⟩, ht⟩ := h
      exact by rw [hk, Value.beq_eq hv, Value.beqEntries_eq ht]
end

mutual
theorem Value.beq_refl : ∀ (v : Value), Value.beq v v = true
  | .null => rfl
  | .bool b => by simp [Value.beq]
  | .int n => by simp [Value.beq]
  | .str s => by simp [Value.beq]
  | .dict es => Value.beqEntries_refl es

theorem Value.beqEntries_refl : ∀ (es : List (String × Value)),
    Value.beq.beqEntries es es = true
  | [] => rfl
  | (k, v) :: t => by
      simp only [Value.beq.beqEntries, Bool.and_eq_true]
      exact ⟨⟨by simp, Value.beq_refl v⟩, Value.beqEntries_refl t⟩
end

instance : DecidableEq Value := fun v w =>
  if h : Value.beq v w = true then
    isTrue (Value.beq_eq h)
  else
    isFalse (fun hw => h (hw ▸ Value.beq_refl v))

/-- Python `d[k]` lookup on a dict: the value bound to the first occurrence
of key `k`, if any (`None` here plays the role of a raised `KeyError`). -/
def dictGet : List (String × Value) → String → Option Value
  | [], _ => none
  | (k', v') :: rest, k => if k' = k then some v' else dictGet rest k

/-- Python `d[k] = v` assignment on a dict: replace the binding in place if
the key is present, otherwise append it (insertion order semantics). -/
def dictSet : List (String × Value) → String → Value → List (String × Value)
  | [], k, v => [(k, v)]
  | (k', v') :: rest, k, v =>
      if k' = k then (k, v) :: rest else (k', v') :: dictSet rest k v

theorem dictGet_dictSet_self (d : List (String × Value)) (k : String) (v : Value) :
    dictGet (dictSet d k v) k = some v := by
  induction d with
  | nil => simp [dictGet, dictSet]
  | cons kv rest ih =>
      obtain ⟨k', v'⟩ := kv
      by_cases h : k' = k
      · simp [dictGet, dictSet, h]
      · simp [dictGet, dictSet, h, ih]

theorem dictGet_dictSet_ne (d : List (String × Value)) (k k' : String) (v : Value)
    (h : k' ≠ k) : dictGet (dictSet d k v) k' = dictGet d k' := by
  induction d with
  | nil => simp [dictGet, dictSet, Ne.symm h]
  | cons kv rest ih =>
      obtain ⟨k₀, v₀⟩ := kv
      by_cases h₀ : k₀ = k
      · subst h₀
        simp [dictGet, dictSet, Ne.symm h, h]
      · by_cases h₁ : k₀ = k'
        · simp [dictGet, dictSet, h₀, h₁, h]
        · simp [dictGet, dictSet, h₀, h₁, ih]

/-- Embedding of Python's `s.split(sep)` for a single-character separator,
on the character list: `"" → [""]`, separators delimit (possibly empty)
fields. -/
def splitChars (sep : Char) : List Char → List (List Char)
  | [] => [[]]
  | c :: cs =>
      match splitChars sep cs with
      | [] => if c = sep then [[], []] else [[c]]
      | f :: rest => if c = sep then [] :: f :: rest else (c :: f) :: rest

/-- Embedding of Python's `key.split('.')` (as used by `Config.get` /
`Config.set`): split a string on a separator character. -/
def pySplit (s : String) (sep : Char) : List String :=
  (splitChars sep s.data).map (fun l => ⟨l⟩)

theorem splitChars_ne_nil (sep : Char) (l : List Char) : splitChars sep l ≠ [] := by
  cases l with
  | nil => simp [splitChars]
  | cons c cs =>
      simp only [splitChars]
      cases splitChars sep cs with
      | nil =>
          by_cases h : c = sep <;> simp [h]
      | cons f rest =>
          by_cases h : c = sep <;> simp [h]

theorem pySplit_ne_nil (s : String) (sep : Char) : pySplit s sep ≠ [] := by
  simp only [pySplit, ne_eq, List.map_eq_nil]
  exact splitChars_ne_nil sep s.data

/-- The whitespace characters removed by Python's `str.strip()` (ASCII
range; the application only ever strips user-typed URLs). -/
def isPySpace (c : Char) : Bool :=
  c = ' ' || c = '\t' || c = '\n' || c = '\x0d' || c = '\x0b' || c = '\x0c'

/-- Embedding of Python's `s.strip()`: drop leading and trailing
whitespace. -/
def pyStrip (s : String) : String :=
  ⟨((s.data.dropWhile isPySpace).reverse.dropWhile isPySpace).reverse⟩

theorem pyStrip_all_space (s : String) (h : ∀ c ∈ s.data, isPySpace c = true) :
    pyStrip s = "" := by
  have h₁ : s.data.dropWhile isPySpace = [] := List.dropWhile_eq_nil_iff.mpr h
  simp [pyStrip, h₁]

namespace Config

/-- Embedding of `Config._get_default_config` (config.py): the built-in
default configuration, translated entry for entry. -/
def _get_default_config : List (String × Value) :=
  [ ("app", Value.dict
      [ ("name", Value.str "English Accent Classifier"),
        ("version", Value.str "1.0.0"),
        ("description", Value.str "A tool for identifying English accents from YouTube videos") ]),
    ("audio", Value.dict
      [ ("temp_dir", Value.null),
        ("sample_rate", Value.int 16000),
        ("channels", Value.int 1) ]),
    ("model", Value.dict
      [ ("path", Value.str "Jzuluaga/accent-id-commonaccent_ecapa"),
        ("cache_dir", Value.null) ]),
    ("youtube", Value.dict
      [ ("format", Value.str "bestaudio/best"),
        ("audio_format", Value.str "mp3"),
        ("audio_quality", Value.str "192") ]),
    ("logging", Value.dict
      [ ("level", Value.str "INFO"),
        ("format", Value.str "%(asctime)s - %(name)s - %(levelname)s - %(message)s"),
        ("file", Value.null) ]),
    ("gui", Value.dict
      [ ("title", Value.str "English Accent Classifier"),
        ("width", Value.int 600),
        ("height", Value.int 500),
        ("font_family", Value.str "Arial"),
        ("font_size", Value.int 10) ]) ]

/-- Embedding of `Config._merge_configs` (config.py): start from a copy of
`base` and walk the `override` entries in order; when both the current
result value and the override value are dicts they are merged recursively,
otherwise the override value is assigned outright. -/
def _merge_configs : List (String × Value) → List (String × Value) → List (String × Value)
  | base, [] => base
  | base, (k, Value.dict o) :: rest =>
      match dictGet base k with
      | some (Value.dict b) => _merge_configs (dictSet base k (Value.dict (_merge_configs b o))) rest
      | _ => _merge_configs (dictSet base k (Value.dict o)) rest
  | base, (k, v) :: rest => _merge_configs (dictSet base k v) rest
termination_by _ o => sizeOf o
decreasing_by
  all_goals (simp <;> omega)

/-- One iteration of the `for key, value in override.items()` loop of
`Config._merge_configs`: the assignment performed for a single override
entry. -/
def mergeStep (base : List (String × Value)) (k : String) (v : Value) : List (String × Value) :=
  match dictGet base k, v with
  | some (Value.dict b), Value.dict o => dictSet base k (Value.dict (_merge_configs b o))
  | _, _ => dictSet base k v

theorem merge_nil (base : List (String × Value)) : _merge_configs base [] = base := by
  simp [_merge_configs]

theorem merge_cons (base : List (String × Value)) (k : String) (v : Value)
    (rest : List (String × Value)) :
    _merge_configs base ((k, v) :: rest) = _merge_configs (mergeStep base k v) rest := by
  cases v with
  | dict o =>
      rcases hd : dictGet base k with _ | w
      · simp [_merge_configs, mergeStep, hd]
      · cases w <;> simp [_merge_configs, mergeStep, hd]
  | null => simp [_merge_configs, mergeStep]
  | bool b => simp [_merge_configs, mergeStep]
  | int n => simp [_merge_configs, mergeStep]
  | str s => simp [_merge_configs, mergeStep]

/-- The loop of `Config.get` (config.py): `for k in keys: value = value[k]`
inside `try`, with `KeyError` (missing key) and `TypeError` (indexing a
non-dict value with a string key) both mapped to `none`. -/
def getPath : Value → List String → Option Value
  | v, [] => some v
  | Value.dict d, k :: ks =>
      match dictGet d k with
      | some v => getPath v ks
      | none => none
  | _, _ :: _ => none

/-- Embedding of `Config.get` (config.py): split the key on dots, walk the
nested dicts, and return the caller-supplied default when the walk raises. -/
def get (cfg : List (String × Value)) (key : String) (default : Value) : Value :=
  match getPath (Value.dict cfg) (pySplit key '.') with
  | some v => v
  | none => default

/-- The loop of `Config.set` (config.py): navigate to the parent of the
final key, replacing a missing or non-dict intermediate with a fresh empty
dict, then assign the final key. -/
def setPath : List (String × Value) → List String → Value → List (String × Value)
  | d, [], _ => d
  | d, [k], v => dictSet d k v
  | d, k :: rest, v =>
      let sub : List (String × Value) :=
        match dictGet d k with
        | some (Value.dict s) => s
        | _ => []
      dictSet d k (Value.dict (setPath sub rest v))

/-- Embedding of `Config.set` (config.py): split the key on dots and assign
along the path (the `keys` list of a Python `str.split` is never empty). -/
def set (cfg : List (String × Value)) (key : String) (v : Value) : List (String × Value) :=
  setPath cfg (pySplit key '.') v

theorem getPath_setPath : ∀ (ks : List String) (d : List (String × Value)) (v : Value),
    ks ≠ [] → getPath (Value.dict (setPath d ks v)) ks = some v
  | [], _, _, h => absurd rfl h
  | [k], d, v, _ => by
      simp [setPath, getPath, dictGet_dictSet_self]
  | k :: k' :: rest, d, v, _ => by
      simp only [setPath, getPath, dictGet_dictSet_self]
      exact getPath_setPath (k' :: rest) _ v (by simp)

theorem dictGet_eq_none_of_not_mem (d : List (String × Value)) (k : String)
    (h : k ∉ d.map Prod.fst) : dictGet d k = none := by
  induction d with
  | nil => rfl
  | cons kv rest ih =>
      obtain ⟨k₀, v₀⟩ := kv
      simp only [List.map_cons, List.mem_cons] at h
      push_neg at h
      simp [dictGet, Ne.symm h.1, ih h.2]

theorem mergeStep_eq_dictSet (base : List (String × Value)) (k : String) (v : Value) :
    ∃ X, mergeStep base k v = dictSet base k X := by
  rcases hd : dictGet base k with _ | w
  · exact ⟨v, by cases v <;> simp [mergeStep, hd]⟩
  · cases w <;> cases v <;> simp [mergeStep, hd]

theorem merge_preserves_untouched : ∀ (override base : List (String × Value)) (k : String),
    dictGet override k = none →
    dictGet (_merge_configs base override) k = dictGet base k
  | [], _, _, _ => by simp [merge_nil]
  | (k₀, v₀) :: rest, base, k, h => by
      have hne : k₀ ≠ k := by
        intro hk
        simp [dictGet, hk] at h
      have hrest : dictGet rest k = none := by
        simpa [dictGet, hne] using h
      obtain ⟨X, hX⟩ := mergeStep_eq_dictSet base k₀ v₀
      rw [merge_cons, hX, merge_preserves_untouched rest _ k hrest,
        dictGet_dictSet_ne _ _ _ _ (Ne.symm hne)]

theorem merge_override_wins : ∀ (override base : List (String × Value)) (k : String) (v : Value),
    (override.map Prod.fst).Nodup →
    dictGet override k = some v →
    dictGet (_merge_configs base override) k =
      (match dictGet base k, v with
       | some (Value.dict b), Value.dict o => some (Value.dict (_merge_configs b o))
       | _, _ => some v)
  | [], _, _, _, _, h => by simp [dictGet] at h
  | (k₀, v₀) :: rest, base, k, v, hnd, h => by
      simp only [List.map_cons, List.nodup_cons] at hnd
      by_cases hk : k₀ = k
      · subst hk
        have hv : v₀ = v := by simpa [dictGet] using h
        subst hv
        have hrest : dictGet rest k₀ = none :=
          dictGet_eq_none_of_not_mem rest k₀ hnd.1
        rw [merge_cons, merge_preserves_untouched rest _ k₀ hrest]
        rcases hd : dictGet base k₀ with _ | w
        · cases v₀ <;> simp [mergeStep, hd, dictGet_dictSet_self]
        · cases w <;> cases v₀ <;> simp [mergeStep, hd, dictGet_dictSet_self]
      · have hrest : dictGet rest k = some v := by
          simpa [dictGet, hk] using h
        obtain ⟨X, hX⟩ := mergeStep_eq_dictSet base k₀ v₀
        rw [merge_cons, hX, merge_override_wins rest _ k v hnd.2 hrest,
          dictGet_dictSet_ne _ _ _ _ (Ne.symm hk)]

end Config

/-! ## Error taxonomy (`exceptions.py`) -/

/-- Embedding of the exception hierarchy of `exceptions.py`.  Each class
derived from `AccentClassifierError` becomes one constructor carrying the
message passed to the exception constructor. -/
inductive AccentClassifierError where
  | DependencyError (msg : String)
  | AudioProcessingError (msg : String)
  | DownloadError (msg : String)
  | ClassificationError (msg : String)
  deriving DecidableEq, Repr

/-- Python `str(e)` on an `AccentClassifierError` instance: the message. -/
def AccentClassifierError.message : AccentClassifierError → String
  | .DependencyError m => m
  | .AudioProcessingError m => m
  | .DownloadError m => m
  | .ClassificationError m => m

/-- A Python exception as seen by an `except` clause: either one of the
application's own `AccentClassifierError` subclasses, or any other
exception (from a third-party library), identified by its `str(e)`. -/
inductive PyExc where
  | app (e : AccentClassifierError)
  | other (msg : String)
  deriving DecidableEq, Repr

/-- Python `str(e)` on a caught exception. -/
def PyExc.str : PyExc → String
  | .app e => e.message
  | .other m => m

/-- Decidable recognizer for the download-failure kind of an operation's
outcome. -/
def isDownloadError : Except AccentClassifierError String → Bool
  | .error (.DownloadError _) => true
  | _ => false

/-- Decidable recognizer for the processing-failure kind. -/
def isAudioProcessingError : Except AccentClassifierError String → Bool
  | .error (.AudioProcessingError _) => true
  | _ => false

/-! ## Filesystem model -/

/-- The filesystem as observed by the pipeline: each path either does not
exist (`none`) or exists with a byte size (`some size`, matching
`os.path.exists` / `os.path.getsize`). -/
abbrev FS := String → Option Nat

/-- `os.remove(p)`. -/
def removeFile (fs : FS) (p : String) : FS :=
  fun q => if q = p then none else fs q

/-- Creating or overwriting a file of the given size (e.g. by
`audio.export`). -/
def writeFile (fs : FS) (p : String) (size : Nat) : FS :=
  fun q => if q = p then some size else fs q

/-- The cleanup idiom `if os.path.exists(p): os.remove(p)`. -/
def cleanupIfExists (fs : FS) (p : String) : FS :=
  match fs p with
  | some _ => removeFile fs p
  | none => fs

theorem cleanupIfExists_self (fs : FS) (p : String) : cleanupIfExists fs p p = none := by
  unfold cleanupIfExists
  cases h : fs p with
  | none => exact h
  | some n => simp [removeFile]

/-! ## Audio acquisition (`audio_processor.py`) -/

/-- The message used by every `DependencyError` raised in the code base. -/
def dependencyMessage : String :=
  "Required dependencies are not available. Please install torch, pydub, speechbrain, and yt-dlp."

/-- Message of the `DownloadError` raised when the downloader produced no
file. -/
def downloadFailedMessage : String :=
  "Failed to download audio from YouTube URL."

/-- Message of the `DownloadError` raised when the downloaded file is
empty. -/
def emptyFileMessage : String :=
  "Downloaded audio file is empty. The video may not be available, may not contain audio, or may be restricted. Try a different YouTube URL."

/-- The Python `a or b` fallback chain on optional strings (`None` and the
empty string are falsy), as used for `temp_dir or config.get(...) or
tempfile.gettempdir()`. -/
def pyOrString : Option String → String → String
  | some s, fallback => if s = "" then fallback else s
  | none, fallback => fallback

/-- A configuration value read back as an optional string (the temp-dir and
format settings are strings or `None`). -/
def Value.asString : Value → Option String
  | .str s => some s
  | _ => none

/-- Embedding of the `AudioProcessor` object: the fields assigned by
`AudioProcessor.__init__`. -/
structure AudioProcessor where
  temp_dir : String
  youtube_format : Value
  audio_format : String
  audio_quality : Value

/-- Embedding of `AudioProcessor.__init__` (audio_processor.py):
raise `DependencyError` when the imports failed, otherwise resolve
`temp_dir` through the `or` fallback chain and read the youtube settings
from the configuration. -/
def AudioProcessor.init (deps : Bool) (temp_dir : Option String)
    (cfg : List (String × Value)) (gettempdir : String) :
    Except AccentClassifierError AudioProcessor :=
  if deps then
    .ok { temp_dir := pyOrString temp_dir
            (pyOrString (Config.get cfg "audio.temp_dir" Value.null).asString gettempdir),
          youtube_format := Config.get cfg "youtube.format" Value.null,
          audio_format := ((Config.get cfg "youtube.audio_format" Value.null).asString).getD "",
          audio_quality := Config.get cfg "youtube.audio_quality" Value.null }
  else
    .error (.DependencyError dependencyMessage)

/-- `os.path.join(self.temp_dir, f"temp_audio_{os.getpid()}")`. -/
def AudioProcessor.tempBase (p : AudioProcessor) (pid : Nat) : String :=
  p.temp_dir ++ "/temp_audio_" ++ toString pid

/-- `f"{temp_base}.{self.audio_format}"`: the intermediate compressed
file. -/
def AudioProcessor.tempAudioFile (p : AudioProcessor) (pid : Nat) : String :=
  p.tempBase pid ++ "." ++ p.audio_format

/-- `f"{temp_base}.wav"`: the waveform file. -/
def AudioProcessor.tempWav (p : AudioProcessor) (pid : Nat) : String :=
  p.tempBase pid ++ ".wav"

/-- Oracle for the external downloader call `ydl.download([url])`: it may
raise (`err`), and it leaves the filesystem in state `fs`. -/
structure DLOutcome where
  err : Option String
  fs : FS

/-- Oracle for the external transcode `AudioSegment.from_file` /
`audio.export`: it may raise (`err`); on success the produced waveform file
has `wavSize` bytes. -/
structure ConvOutcome where
  err : Option String
  wavSize : Nat

/-- Embedding of `AudioProcessor.download_and_convert_to_wav`
(audio_processor.py).  Returns the value or error of the call together
with the final filesystem.  The `try` body either returns the waveform
path or raises: a `DownloadError` at the existence/size checks, or a
third-party exception from the downloader or the transcoder.  The blanket
`except Exception as e` turns EVERY exception raised in the body —
including the `DownloadError`s the body itself raised — into
`AudioProcessingError(f"Audio processing failed: {str(e)}")`, and the
`finally` clause then deletes the intermediate file when it exists. -/
def AudioProcessor.download_and_convert_to_wav (deps : Bool) (p : AudioProcessor)
    (pid : Nat) (dl : DLOutcome) (conv : ConvOutcome) (fs₀ : FS) :
    Except AccentClassifierError String × FS :=
  if deps then
    let temp_audio_file := p.tempAudioFile pid
    let temp_wav := p.tempWav pid
    let body : Except PyExc String × FS :=
      match dl.err with
      | some e => (.error (.other e), dl.fs)
      | none =>
          match dl.fs temp_audio_file with
          | none => (.error (.app (.DownloadError downloadFailedMessage)), dl.fs)
          | some 0 => (.error (.app (.DownloadError emptyFileMessage)), dl.fs)
          | some _ =>
              match conv.err with
              | some e => (.error (.other e), dl.fs)
              | none => (.ok temp_wav, writeFile dl.fs temp_wav conv.wavSize)
    let handled : Except AccentClassifierError String × FS :=
      match body with
      | (.ok pth, fs) => (.ok pth, fs)
      | (.error e, fs) =>
          (.error (.AudioProcessingError ("Audio processing failed: " ++ e.str)), fs)
    (handled.1, cleanupIfExists handled.2 temp_audio_file)
  else
    (.error (.DependencyError dependencyMessage), fs₀)

/-! ## Accent classification (`accent_classifier.py`)

The SpeechBrain model is an external collaborator: `classify_file` plus
`F.softmax` are one oracle producing the probability row `probs[0]`
(modelled exactly as rationals; the claims under verification concern the
report's structure and the arg-max, not binary floating point), and the
label encoder is the function `decode` from class indices to label
strings. -/

/-- The model collaborator: its label encoder (`decode_ndim` on single
indices) and the encoder's label count (`num_labels`). -/
structure Model where
  decode : Nat → String
  num_labels : Nat

/-- `label_encoder.decode_ndim(torch.arange(label_encoder.num_labels))`:
every label the encoder defines, in the encoder's fixed order. -/
def Model.labelList (m : Model) : List String :=
  (List.range m.num_labels).map m.decode

/-- The two decimal digits of `n % 100`, most significant first (the
fractional part printed by `%.2f`). -/
def twoDigits (n : Nat) : String :=
  ⟨[Char.ofNat (48 + n / 10), Char.ofNat (48 + n % 10)]⟩

/-- Right-align a string in a field of width `w` (Python `{:>w}`). -/
def padLeft (s : String) (w : Nat) : String :=
  ⟨List.replicate (w - s.length) ' '⟩ ++ s

/-- Left-align a string in a field of width `w` (Python `{:<w}`): the
string is followed by spaces up to the width and is NOT truncated when it
is longer than `w`. -/
def padRight (s : String) (w : Nat) : String :=
  s ++ ⟨List.replicate (w - s.length) ' '⟩

/-- Floor of a rational, computed on its reduced numerator and
denominator. -/
def qfloor (x : ℚ) : ℤ := x.num / x.den

/-- Round a rational to the nearest integer, ties to even (the rounding
used when a binary float is rendered with a fixed number of decimals;
idealized over exact rationals). -/
def roundHalfEven (x : ℚ) : ℤ :=
  if x - qfloor x < 1 / 2 then qfloor x
  else if 1 / 2 < x - qfloor x then qfloor x + 1
  else if qfloor x % 2 = 0 then qfloor x else qfloor x + 1

/-- Python `f"{x:.2f}"`: the value rounded to hundredths, rendered with
exactly two digits after the decimal point. -/
def formatFixed2 (x : ℚ) : String :=
  let h := roundHalfEven (x * 100)
  if h < 0 then
    "-" ++ toString (h.natAbs / 100) ++ "." ++ twoDigits (h.natAbs % 100)
  else
    toString (h.toNat / 100) ++ "." ++ twoDigits (h.toNat % 100)

/-- Python `f"{x:>6.2f}"`: fixed two-decimal rendering right-aligned in a
field of minimum width 6. -/
def format6_2 (x : ℚ) : String :=
  padLeft (formatFixed2 x) 6

/-- One line of the report: `f"{str(lbl):<20}: {probability:>6.2f}%\n"`
with `probability = probs[0, i].item() * 100`. -/
def resultLine (lbl : String) (p : ℚ) : String :=
  padRight lbl 20 ++ ": " ++ format6_2 (p * 100) ++ "%\n"

/-- The constant header of the report. -/
def resultHeader : String :=
  "Accent probabilities:\n\n"

/-- The report built by the `for i, lbl in enumerate(class_labels)` loop:
the header followed by one line per (label, probability) pair, in label
order. -/
def buildResult (labels : List String) (probs : List ℚ) : String :=
  resultHeader ++ String.join (List.zipWith resultLine labels probs)

/-- The largest element of a list of rationals (`0` for the empty list,
which the pipeline never produces). -/
def listMax : List ℚ → ℚ
  | [] => 0
  | x :: xs => xs.foldl max x

/-- `torch.argmax` on a one-row tensor: the index of the first occurrence
of the maximal value (per the library's documented tie-breaking). -/
def argmaxFirst (l : List ℚ) : Nat :=
  l.findIdx (fun x => x = listMax l)

/-- Embedding of the `AccentClassifier` object: the fields assigned by
`AccentClassifier.__init__` (`self.model` is `None` until `_load_model`
succeeds). -/
structure AccentClassifier where
  model_path : String
  cache_dir : Value
  model : Option Model

/-- Embedding of `AccentClassifier.__init__` together with `_load_model`
(accent_classifier.py): resolve the model path, then eagerly load the
model through the external `from_hparams` collaborator; a load failure is
wrapped into `ClassificationError`. -/
def AccentClassifier.init (deps : Bool) (model_path : Option String)
    (cfg : List (String × Value)) (from_hparams : String → Except String Model) :
    Except AccentClassifierError AccentClassifier :=
  if deps then
    let path := pyOrString model_path
      (((Config.get cfg "model.path" Value.null).asString).getD "")
    match from_hparams path with
    | .ok m =>
        .ok { model_path := path,
              cache_dir := Config.get cfg "model.cache_dir" Value.null,
              model := some m }
    | .error e =>
        .error (.ClassificationError ("Failed to load accent classification model: " ++ e))
  else
    .error (.DependencyError dependencyMessage)

/-- Embedding of `AccentClassifier.classify_accent` (accent_classifier.py).
`abspath` is the `os.path.abspath` collaborator; `run` is the oracle for
`self.model.classify_file(path)` followed by `F.softmax`, yielding the
probability row (or raising).  The method never assigns `self.model`, so
the classifier state is returned unchanged on every path. -/
def AccentClassifier.classify_accent (deps : Bool) (c : AccentClassifier) (fs : FS)
    (wav_path : String) (abspath : String → String)
    (run : Model → String → Except String (List ℚ)) :
    Except AccentClassifierError (String × String) × AccentClassifier :=
  if deps = false || c.model.isNone then
    (.error (.DependencyError dependencyMessage), c)
  else
    match c.model with
    | none => (.error (.DependencyError dependencyMessage), c)
    | some m =>
        if fs wav_path = none then
          (.error (.ClassificationError ("Audio file not found: " ++ wav_path)), c)
        else
          let wav_abs := (abspath wav_path).map (fun ch => if ch = '\\' then '/' else ch)
          match run m wav_abs with
          | .error e =>
              (.error (.ClassificationError ("Accent classification failed: " ++ e)), c)
          | .ok probs =>
              let class_labels := (List.range probs.length).map m.decode
              let result := buildResult class_labels probs
              let best_index := argmaxFirst probs
              let best_label := class_labels.getD best_index ""
              (.ok (result, best_label), c)

/-! ### Properties of the report formatting and of the arg-max -/

theorem qfloor_le (x : ℚ) : (qfloor x : ℚ) ≤ x := by
  have hden : (0 : ℚ) < (x.den : ℚ) := by exact_mod_cast x.pos
  conv_rhs => rw [← Rat.num_div_den x]
  rw [le_div_iff₀ hden]
  have hmod : 0 ≤ x.num % (x.den : ℤ) := Int.emod_nonneg x.num (by exact_mod_cast x.den_nz)
  have hdm := Int.ediv_add_emod x.num (x.den : ℤ)
  have key : (qfloor x) * (x.den : ℤ) ≤ x.num := by
    unfold qfloor
    linarith
  exact_mod_cast key

theorem lt_qfloor_add_one (x : ℚ) : x < qfloor x + 1 := by
  have hden : (0 : ℚ) < (x.den : ℚ) := by exact_mod_cast x.pos
  have hden' : (0 : ℤ) < (x.den : ℤ) := by exact_mod_cast x.pos
  conv_lhs => rw [← Rat.num_div_den x]
  rw [div_lt_iff₀ hden]
  have hmod : x.num % (x.den : ℤ) < (x.den : ℤ) := Int.emod_lt_of_pos x.num hden'
  have hdm := Int.ediv_add_emod x.num (x.den : ℤ)
  have key : x.num < (qfloor x + 1) * (x.den : ℤ) := by
    unfold qfloor
    nlinarith
  exact_mod_cast key

theorem qfloor_nonneg (x : ℚ) (hx : 0 ≤ x) : 0 ≤ qfloor x := by
  by_contra hneg
  push_neg at hneg
  have hz : qfloor x + 1 ≤ 0 := by omega
  have hq : ((qfloor x : ℚ) + 1) ≤ 0 := by exact_mod_cast hz
  linarith [lt_qfloor_add_one x]

theorem roundHalfEven_abs_le (x : ℚ) : |x - (roundHalfEven x : ℚ)| ≤ 1 / 2 := by
  have h0 : (qfloor x : ℚ) ≤ x := qfloor_le x
  have h1 : x < qfloor x + 1 := lt_qfloor_add_one x
  unfold roundHalfEven
  split_ifs with ha hb hc
  · rw [abs_le]; constructor <;> linarith
  · rw [abs_le]; push_cast; constructor <;> linarith
  · push_neg at ha hb
    rw [abs_le]; constructor <;> linarith
  · push_neg at ha hb
    rw [abs_le]; push_cast; constructor <;> linarith

theorem roundHalfEven_nonneg (x : ℚ) (hx : 0 ≤ x) : 0 ≤ roundHalfEven x := by
  have h0 := qfloor_nonneg x hx
  unfold roundHalfEven
  split_ifs <;> omega

theorem twoDigits_length (n : Nat) : (twoDigits n).length = 2 := rfl

theorem formatFixed2_shape (x : ℚ) (hx : 0 ≤ x) :
    ∃ i f : ℕ, f < 100 ∧
      formatFixed2 x = toString i ++ "." ++ twoDigits f ∧
      |x - ((i : ℚ) + (f : ℚ) / 100)| ≤ 1 / 200 := by
  have hh : 0 ≤ roundHalfEven (x * 100) := roundHalfEven_nonneg _ (by positivity)
  have hlt : ¬ roundHalfEven (x * 100) < 0 := not_lt.mpr hh
  refine ⟨(roundHalfEven (x * 100)).toNat / 100, (roundHalfEven (x * 100)).toNat % 100,
    Nat.mod_lt _ (by norm_num), ?_, ?_⟩
  · unfold formatFixed2
    rw [if_neg hlt]
  · have habs := roundHalfEven_abs_le (x * 100)
    have htn : (((roundHalfEven (x * 100)).toNat : ℤ) : ℚ) = ((roundHalfEven (x * 100)) : ℚ) := by
      exact_mod_cast congrArg (fun z : ℤ => (z : ℚ)) (Int.toNat_of_nonneg hh)
    have hnat := Nat.div_add_mod (roundHalfEven (x * 100)).toNat 100
    have hq : 100 * (((roundHalfEven (x * 100)).toNat / 100 : ℕ) : ℚ)
        + (((roundHalfEven (x * 100)).toNat % 100 : ℕ) : ℚ)
        = ((roundHalfEven (x * 100)) : ℚ) := by
      rw [← htn]
      push_cast
      exact_mod_cast congrArg (fun n : ℕ => (n : ℚ)) hnat
    have h2 : (((roundHalfEven (x * 100)).toNat / 100 : ℕ) : ℚ)
        + (((roundHalfEven (x * 100)).toNat % 100 : ℕ) : ℚ) / 100
        = ((roundHalfEven (x * 100)) : ℚ) / 100 := by
      field_simp
      linarith
    rw [h2]
    have h3 : x - ((roundHalfEven (x * 100)) : ℚ) / 100
        = (x * 100 - ((roundHalfEven (x * 100)) : ℚ)) / 100 := by ring
    rw [h3, abs_div]
    have h4 : |(100 : ℚ)| = 100 := abs_of_pos (by norm_num)
    rw [h4]
    linarith

theorem le_foldl_max (a : ℚ) (l : List ℚ) : a ≤ l.foldl max a := by
  induction l generalizing a with
  | nil => exact le_refl a
  | cons b t ih => exact le_trans (le_max_left a b) (ih (max a b))

theorem mem_le_foldl_max (l : List ℚ) (a x : ℚ) (hx : x ∈ l) : x ≤ l.foldl max a := by
  induction l generalizing a with
  | nil => cases hx
  | cons b t ih =>
      rcases List.mem_cons.mp hx with rfl | h
      · exact le_trans (le_max_right a x) (le_foldl_max _ t)
      · exact ih _ h

theorem foldl_max_mem (l : List ℚ) (a : ℚ) : l.foldl max a = a ∨ l.foldl max a ∈ l := by
  induction l generalizing a with
  | nil => left; rfl
  | cons b t ih =>
      have hfold : (b :: t).foldl max a = t.foldl max (max a b) := rfl
      rcases ih (max a b) with h | h
      · rcases max_choice a b with hm | hm
        · left; rw [hfold, h, hm]
        · right; rw [hfold, h, hm]; exact List.mem_cons_self b t
      · right; rw [hfold]; exact List.mem_cons_of_mem b h

theorem listMax_mem (l : List ℚ) (h : l ≠ []) : listMax l ∈ l := by
  cases l with
  | nil => exact absurd rfl h
  | cons x xs =>
      have hdef : listMax (x :: xs) = xs.foldl max x := rfl
      rw [hdef]
      rcases foldl_max_mem xs x with h1 | h1
      · rw [h1]; exact List.mem_cons_self x xs
      · exact List.mem_cons_of_mem x h1

theorem le_listMax (l : List ℚ) (x : ℚ) (hx : x ∈ l) : x ≤ listMax l := by
  cases l with
  | nil => cases hx
  | cons b t =>
      have hdef : listMax (b :: t) = t.foldl max b := rfl
      rw [hdef]
      rcases List.mem_cons.mp hx with rfl | h
      · exact le_foldl_max x t
      · exact mem_le_foldl_max t b x h

theorem getD_eq_get (l : List ℚ) (i : Nat) (h : i < l.length) :
    l.getD i 0 = l.get ⟨i, h⟩ := by
  simp [List.getD_eq_getElem?_getD, List.getElem?_eq_getElem h]

theorem argmaxFirst_lt_length (l : List ℚ) (h : l ≠ []) : argmaxFirst l < l.length :=
  List.findIdx_lt_length_of_exists ⟨listMax l, listMax_mem l h, by simp⟩

theorem argmaxFirst_getD (l : List ℚ) (h : l ≠ []) :
    l.getD (argmaxFirst l) 0 = listMax l := by
  have hw := argmaxFirst_lt_length l h
  rw [getD_eq_get l _ hw]
  have hfind := @List.findIdx_getElem _ (fun x => decide (x = listMax l)) l hw
  simpa using hfind

theorem getD_le_argmaxFirst (l : List ℚ) (h : l ≠ []) (j : Nat) (hj : j < l.length) :
    l.getD j 0 ≤ l.getD (argmaxFirst l) 0 := by
  rw [argmaxFirst_getD l h, getD_eq_get l j hj]
  exact le_listMax l _ (l.get_mem _ _)

theorem getD_lt_of_lt_argmaxFirst (l : List ℚ) (h : l ≠ []) (j : Nat)
    (hj : j < argmaxFirst l) : l.getD j 0 < l.getD (argmaxFirst l) 0 := by
  have hjl : j < l.length := lt_trans hj (argmaxFirst_lt_length l h)
  have hne := List.not_of_lt_findIdx hj
  rw [argmaxFirst_getD l h, getD_eq_get l j hjl]
  refine lt_of_le_of_ne (le_listMax l _ (l.get_mem _ _)) ?_
  simpa using hne

/-! ## Presentation layer (`gui.py`)

`_process_video` is embedded as a function from the current widget state
and the raw entry text to the final widget state, together with a trace of
the observable actions it performs (collaborator invocations, dialogs,
processing-state transitions).  The audio-acquisition and classification
calls are oracles; each may return a value or raise (an application error
or any other exception). -/

/-- The observable actions of the trigger handler, in program order. -/
inductive Event where
  | setProcessing (b : Bool)
  | statusUpdate (text color : String)
  | showErrorDialog (msg : String)
  | invokeDownload (url : String)
  | invokeClassify (path : String)
  | renderResult (text : String)
  | cleanupWav (path : String)
  deriving DecidableEq, Repr

/-- The widget state of the single window: whether the URL entry and the
trigger button are disabled (`Processing`) or enabled (`Idle`), the status
line, and the results area. -/
structure GUIState where
  processing : Bool
  status : String
  statusColor : String
  resultText : String
  deriving DecidableEq, Repr

/-- Embedding of `AccentClassifierGUI._set_processing_state` (gui.py):
disable or re-enable the trigger button and the URL entry. -/
def _set_processing_state (s : GUIState) (processing : Bool) : GUIState :=
  { s with processing := processing }

/-- The two `except` clauses of `AccentClassifierGUI._process_video`:
an `AccentClassifierError` shows its own message and the `Processing
failed` status; any other exception shows a wrapped message and the
`Unexpected error` status.  Neither clause re-raises. -/
def handlePipelineError (s : GUIState) (e : PyExc) : GUIState × List Event :=
  match e with
  | .app err =>
      ({ s with status := "Processing failed", statusColor := "#F44336" },
       [Event.showErrorDialog err.message,
        Event.statusUpdate "Processing failed" "#F44336"])
  | .other m =>
      ({ s with status := "Unexpected error", statusColor := "#F44336" },
       [Event.showErrorDialog ("An unexpected error occurred: " ++ m),
        Event.statusUpdate "Unexpected error" "#F44336"])

/-- The message rendered to the user for a pipeline exception. -/
def dialogMessage : PyExc → String
  | .app err => err.message
  | .other m => "An unexpected error occurred: " ++ m

/-- Embedding of `AccentClassifierGUI._process_video` (gui.py): strip the
entry text; reject an empty result with an error dialog and return with no
other effect; otherwise enter Processing, run the download and then the
classification inside `try`, render the report and best label on success,
route any exception through the `except` clauses, always clean up the
waveform file (inner `finally`) and always leave Processing (outer
`finally`). -/
def _process_video (s : GUIState) (url_raw : String)
    (dl : String → Except PyExc String)
    (cls : String → Except PyExc (String × String)) : GUIState × List Event :=
  let url := pyStrip url_raw
  if url = "" then
    (s, [Event.showErrorDialog "Please enter a YouTube URL."])
  else
    let s₁ := _set_processing_state s true
    let s₂ := { s₁ with
      status := "Downloading and processing audio...",
      statusColor := "#FF9800" }
    let evs₀ : List Event :=
      [Event.setProcessing true,
       Event.statusUpdate "Downloading and processing audio..." "#FF9800",
       Event.invokeDownload url]
    match dl url with
    | .error e =>
        let handled := handlePipelineError s₂ e
        (_set_processing_state handled.1 false,
         evs₀ ++ handled.2 ++ [Event.setProcessing false])
    | .ok wav_path =>
        match cls wav_path with
        | .error e =>
            let handled := handlePipelineError s₂ e
            (_set_processing_state handled.1 false,
             evs₀ ++ [Event.invokeClassify wav_path, Event.cleanupWav wav_path]
               ++ handled.2 ++ [Event.setProcessing false])
        | .ok (result, best) =>
            let s₃ := { s₂ with
              resultText := result,
              status := "Most probable accent: " ++ best,
              statusColor := "#4CAF50" }
            (_set_processing_state s₃ false,
             evs₀ ++ [Event.invokeClassify wav_path,
               Event.renderResult result,
               Event.statusUpdate ("Most probable accent: " ++ best) "#4CAF50",
               Event.cleanupWav wav_path,
               Event.setProcessing false])

/-! ## Concrete fixtures used to settle the claims -/

/-- A filesystem with no files. -/
def emptyFS : FS := fun _ => none

/-- A processor as built by `AudioProcessor.__init__` with an explicit temp
dir and the default configuration. -/
def sampleProc : AudioProcessor :=
  { temp_dir := "/tmp", youtube_format := Value.str "bestaudio/best",
    audio_format := "mp3", audio_quality := Value.str "192" }

/-- A filesystem holding only a zero-byte intermediate file at the path the
downloader is expected to write. -/
def zeroByteFS : FS :=
  fun q => if q = sampleProc.tempAudioFile 1234 then some 0 else none

/-- Outcome of `download_and_convert_to_wav` when the downloader returns
normally but produces no file at all. -/
def noFileRun : Except AccentClassifierError String × FS :=
  AudioProcessor.download_and_convert_to_wav true sampleProc 1234
    ⟨none, emptyFS⟩ ⟨none, 0⟩ emptyFS

/-- Outcome of `download_and_convert_to_wav` when the downloader produces a
zero-byte intermediate file. -/
def zeroByteRun : Except AccentClassifierError String × FS :=
  AudioProcessor.download_and_convert_to_wav true sampleProc 1234
    ⟨none, zeroByteFS⟩ ⟨none, 0⟩ emptyFS

/-! ## The claims -/

/-- C1.  The claim states that when the downloader produces no intermediate
file, or a zero-byte one, `download_and_convert_to_wav` fails with the
download-failure kind (`DownloadError`), distinguishable from the
processing-failure kind.  The code does raise `DownloadError` at the
existence/size checks, but those raises sit inside the same `try` whose
blanket `except Exception` re-wraps EVERY body exception, so what actually
escapes the call is `AudioProcessingError("Audio processing failed: ...")`
— contradicting the method's own docstring ("Raises: DownloadError: If
download fails").  This theorem evaluates the embedded code at both
failing inputs: the surfaced error is the processing kind, not the
download kind (the no-dangling-waveform half of the claim does hold). -/
theorem claim_C1 :
    noFileRun.1 = Except.error (AccentClassifierError.AudioProcessingError
      ("Audio processing failed: " ++ downloadFailedMessage))
    ∧ isDownloadError noFileRun.1 = false
    ∧ isAudioProcessingError noFileRun.1 = true
    ∧ zeroByteRun.1 = Except.error (AccentClassifierError.AudioProcessingError
      ("Audio processing failed: " ++ emptyFileMessage))
    ∧ isDownloadError zeroByteRun.1 = false
    ∧ noFileRun.2 (sampleProc.tempWav 1234) = none
    ∧ zeroByteRun.2 (sampleProc.tempWav 1234) = none := by
  refine ⟨rfl, rfl, rfl, rfl, rfl, rfl, rfl⟩

/-- C2.  On every invocation of `download_and_convert_to_wav` on a
successfully constructed `AudioProcessor` (construction already fails on
missing dependencies, so every reachable invocation has the dependency
guard pass), the intermediate compressed audio file — temp base plus the
configured audio-format extension — does not exist in the resulting
filesystem, whether the call returns the waveform path or surfaces an
error: the `finally` clause deletes it on every exit path of the `try`. -/
theorem claim_C2 (deps : Bool) (td : Option String) (cfg : List (String × Value))
    (gtd : String) (proc : AudioProcessor) (pid : Nat) (dl : DLOutcome)
    (conv : ConvOutcome) (fs₀ : FS)
    (hinit : AudioProcessor.init deps td cfg gtd = .ok proc) :
    (proc.download_and_convert_to_wav deps pid dl conv fs₀).2 (proc.tempAudioFile pid) = none := by
  cases deps with
  | false => simp [AudioProcessor.init] at hinit
  | true => exact cleanupIfExists_self _ _

/-- Witness for C2 at a concrete initialization and download outcome. -/
theorem claim_C2_witness :
    AudioProcessor.init true (some "/tmp") Config._get_default_config "/var/tmp" = .ok sampleProc
    ∧ (sampleProc.download_and_convert_to_wav true 1234 ⟨none, zeroByteFS⟩ ⟨none, 0⟩ emptyFS).2
        (sampleProc.tempAudioFile 1234) = none :=
  ⟨rfl,
   claim_C2 true (some "/tmp") Config._get_default_config "/var/tmp" sampleProc 1234
     ⟨none, zeroByteFS⟩ ⟨none, 0⟩ emptyFS rfl⟩

/-- C3.  `classify_accent` on a waveform path that does not exist fails
with the classification-failure kind (`ClassificationError`, message
"Audio file not found: ..."), returns the classifier object unchanged
(the stored model is untouched — the method never assigns `self.model`),
and never consults the model: the outcome is identical for any two model
oracles and any two path-normalization oracles. -/
theorem claim_C3 (c : AccentClassifier) (m : Model) (fs : FS) (wav : String)
    (abspath abspath' : String → String)
    (run run' : Model → String → Except String (List ℚ))
    (hm : c.model = some m) (hfs : fs wav = none) :
    AccentClassifier.classify_accent true c fs wav abspath run
      = (Except.error (AccentClassifierError.ClassificationError
          ("Audio file not found: " ++ wav)), c)
    ∧ AccentClassifier.classify_accent true c fs wav abspath run
      = AccentClassifier.classify_accent true c fs wav abspath' run' := by
  constructor
  · simp [AccentClassifier.classify_accent, hm, hfs]
  · simp [AccentClassifier.classify_accent, hm, hfs]

/-- A two-label encoder fixture. -/
def sampleModel : Model :=
  { decode := fun i => if i = 0 then "american" else "british", num_labels := 2 }

/-- A loaded classifier fixture holding `sampleModel`. -/
def sampleClassifier : AccentClassifier :=
  { model_path := "Jzuluaga/accent-id-commonaccent_ecapa",
    cache_dir := Value.null,
    model := some sampleModel }

/-- Witness for C3: classifying a missing file on a loaded classifier. -/
theorem claim_C3_witness :
    sampleClassifier.model = some sampleModel
    ∧ emptyFS "/missing.wav" = none
    ∧ AccentClassifier.classify_accent true sampleClassifier emptyFS "/missing.wav" id
        (fun _ _ => .ok [1])
      = (Except.error (AccentClassifierError.ClassificationError
          ("Audio file not found: /missing.wav")), sampleClassifier) :=
  ⟨rfl, rfl,
   (claim_C3 sampleClassifier sampleModel emptyFS "/missing.wav" id id
     (fun _ _ => .ok [1]) (fun _ _ => .ok [1]) rfl rfl).1⟩

/-- The line format as the specification's words describe it (for
comparison with `resultLine`, which embeds the code): the label
`left-padded/truncated to a fixed width` of 20 — i.e. a longer label is cut
to the field width. -/
def specTruncatedLine (lbl : String) (p : ℚ) : String :=
  padRight ⟨lbl.data.take 20⟩ 20 ++ ": " ++ format6_2 (p * 100) ++ "%\n"

theorem roundHalfEven_ten_thousand : roundHalfEven (10000 : ℚ) = 10000 := by
  have hq : qfloor (10000 : ℚ) = 10000 := by
    unfold qfloor
    norm_num [Rat.num_ofNat, Rat.den_ofNat]
  unfold roundHalfEven
  rw [hq]
  norm_num

theorem format6_2_hundred : format6_2 ((1 : ℚ) * 100) = "100.00" := by
  have h1 : ((1 : ℚ) * 100) * 100 = 10000 := by norm_num
  unfold format6_2 formatFixed2
  rw [h1, roundHalfEven_ten_thousand]
  rfl

/-- C4, counterexample.  The claim says each report line renders the label
`left-padded/truncated to a fixed width`.  The code formats the label with
`{str(lbl):<20}`, which left-justifies and pads to a MINIMUM width of 20
but never truncates: for a 25-character label the rendered line keeps all
25 characters, so it differs from the truncated-to-fixed-width line the
claim describes (here at probability 1, whose percentage renders as
`100.00`). -/
theorem claim_C4_counterexample :
    resultLine "abcdefghijklmnopqrstuvwxy" 1
      ≠ specTruncatedLine "abcdefghijklmnopqrstuvwxy" 1 := by
  unfold resultLine specTruncatedLine
  rw [format6_2_hundred]
  decide

/-- C4, amended.  For every successful classification the report string is
the constant header followed by one line per label of the model's label
encoder, in the encoder's fixed order; each line is the label
left-justified and space-padded on the right to a minimum width of 20
(labels longer than 20 characters are rendered in full, not truncated),
then `": "`, then the percentage (probability × 100) rendered with exactly
two digits after the decimal point (the rendered value differs from the
exact percentage by at most half a hundredth) right-aligned in a width-6
field, then `"%"`; and the returned best label is the label at the arg-max
index of the probability row, ties resolving to the first-encountered
index. -/
theorem claim_C4 (c : AccentClassifier) (m : Model) (fs : FS) (wav : String)
    (abspath : String → String) (run : Model → String → Except String (List ℚ))
    (probs : List ℚ)
    (hm : c.model = some m)
    (hfs : fs wav ≠ none)
    (hrun : run m ((abspath wav).map (fun ch => if ch = '\\' then '/' else ch)) = .ok probs)
    (hlen : probs.length = m.num_labels)
    (hne : probs ≠ []) :
    AccentClassifier.classify_accent true c fs wav abspath run
      = (Except.ok (buildResult m.labelList probs,
          m.labelList.getD (argmaxFirst probs) ""), c)
    ∧ buildResult m.labelList probs
      = resultHeader ++ String.join (List.zipWith resultLine m.labelList probs)
    ∧ m.labelList.length = probs.length
    ∧ argmaxFirst probs < probs.length
    ∧ (∀ j, j < probs.length → probs.getD j 0 ≤ probs.getD (argmaxFirst probs) 0)
    ∧ (∀ j, j < argmaxFirst probs → probs.getD j 0 < probs.getD (argmaxFirst probs) 0)
    ∧ (∀ lbl p, 0 ≤ p → ∃ i f : ℕ, f < 100 ∧
        resultLine lbl p = padRight lbl 20 ++ ": "
          ++ padLeft (toString i ++ "." ++ twoDigits f) 6 ++ "%\n"
        ∧ (twoDigits f).length = 2
        ∧ |p * 100 - ((i : ℚ) + (f : ℚ) / 100)| ≤ 1 / 200) := by
  have hcl : (List.range probs.length).map m.decode = m.labelList := by
    rw [hlen]; rfl
  refine ⟨?_, rfl, ?_, argmaxFirst_lt_length probs hne,
    fun j hj => getD_le_argmaxFirst probs hne j hj,
    fun j hj => getD_lt_of_lt_argmaxFirst probs hne j hj, ?_⟩
  · simp [AccentClassifier.classify_accent, hm, hfs, hrun, hcl]
  · simp [Model.labelList, hlen]
  · intro lbl p hp
    obtain ⟨i, f, hf, heq, habs⟩ :=
      formatFixed2_shape (p * 100) (mul_nonneg hp (by norm_num))
    refine ⟨i, f, hf, ?_, twoDigits_length f, habs⟩
    unfold resultLine format6_2
    rw [heq]

/-- A filesystem in which every path exists with four bytes. -/
def fullFS : FS := fun _ => some 4

/-- Witness for C4 (amended) at a concrete loaded classifier, existing
waveform file and probability row. -/
theorem claim_C4_witness :
    fullFS "/a.wav" ≠ none
    ∧ ([(1 : ℚ)/4, 3/4].length = sampleModel.num_labels)
    ∧ AccentClassifier.classify_accent true sampleClassifier fullFS "/a.wav" id
        (fun _ _ => .ok [(1 : ℚ)/4, 3/4])
      = (Except.ok (buildResult sampleModel.labelList [(1 : ℚ)/4, 3/4],
          sampleModel.labelList.getD (argmaxFirst [(1 : ℚ)/4, 3/4]) ""), sampleClassifier) :=
  ⟨by simp [fullFS], rfl,
   (claim_C4 sampleClassifier sampleModel fullFS "/a.wav" id
     (fun _ _ => .ok [(1 : ℚ)/4, 3/4]) [(1 : ℚ)/4, 3/4]
     rfl (by simp [fullFS]) rfl rfl (by simp)).1⟩

/-- A parsed config file that overrides only `audio.temp_dir` and
`app.name`. -/
def c5Override : List (String × Value) :=
  [("audio", Value.dict [("temp_dir", Value.str "/custom/tmp")]),
   ("app", Value.dict [("name", Value.str "Custom App")])]

/-- The merge of the built-in defaults with `c5Override`: the two
overridden leaves replaced, everything else as in the defaults. -/
def c5Merged : List (String × Value) :=
  [ ("app", Value.dict
      [ ("name", Value.str "Custom App"),
        ("version", Value.str "1.0.0"),
        ("description", Value.str "A tool for identifying English accents from YouTube videos") ]),
    ("audio", Value.dict
      [ ("temp_dir", Value.str "/custom/tmp"),
        ("sample_rate", Value.int 16000),
        ("channels", Value.int 1) ]),
    ("model", Value.dict
      [ ("path", Value.str "Jzuluaga/accent-id-commonaccent_ecapa"),
        ("cache_dir", Value.null) ]),
    ("youtube", Value.dict
      [ ("format", Value.str "bestaudio/best"),
        ("audio_format", Value.str "mp3"),
        ("audio_quality", Value.str "192") ]),
    ("logging", Value.dict
      [ ("level", Value.str "INFO"),
        ("format", Value.str "%(asctime)s - %(name)s - %(levelname)s - %(message)s"),
        ("file", Value.null) ]),
    ("gui", Value.dict
      [ ("title", Value.str "English Accent Classifier"),
        ("width", Value.int 600),
        ("height", Value.int 500),
        ("font_family", Value.str "Arial"),
        ("font_size", Value.int 10) ]) ]

theorem c5_merge_eval :
    Config._merge_configs Config._get_default_config c5Override = c5Merged := by
  simp [Config._merge_configs, Config._get_default_config, c5Override, c5Merged,
    dictGet, dictSet]

/-- C5.  At construction the file-provided configuration is merged over the
built-in defaults recursively per nesting level: a key absent from the
override keeps its base value; for a key present in the override, when both
sides hold a dict the dicts merge recursively and otherwise the override
value replaces outright (first two conjuncts, for arbitrary dicts at any
nesting level since `_merge_configs` recurses with the same rule); and
concretely, a file overriding only `audio.temp_dir` and `app.name` leaves
`audio.sample_rate` (and `model.path`) at their built-in defaults while
the two overridden leaves hold the file's values. -/
theorem claim_C5 (base override : List (String × Value)) (k : String) (v : Value) :
    (dictGet override k = none →
      dictGet (Config._merge_configs base override) k = dictGet base k)
    ∧ ((override.map Prod.fst).Nodup → dictGet override k = some v →
      dictGet (Config._merge_configs base override) k =
        (match dictGet base k, v with
         | some (Value.dict b), Value.dict o => some (Value.dict (Config._merge_configs b o))
         | _, _ => some v))
    ∧ Config.get (Config._merge_configs Config._get_default_config c5Override)
        "audio.sample_rate" Value.null = Value.int 16000
    ∧ Config.get (Config._merge_configs Config._get_default_config c5Override)
        "audio.temp_dir" Value.null = Value.str "/custom/tmp"
    ∧ Config.get (Config._merge_configs Config._get_default_config c5Override)
        "app.name" Value.null = Value.str "Custom App"
    ∧ Config.get (Config._merge_configs Config._get_default_config c5Override)
        "model.path" Value.null = Value.str "Jzuluaga/accent-id-commonaccent_ecapa" := by
  refine ⟨Config.merge_preserves_untouched override base k,
    fun hnd hsome => Config.merge_override_wins override base k v hnd hsome,
    ?_, ?_, ?_, ?_⟩ <;>
  · rw [c5_merge_eval]
    decide

/-- Witness for C5: the untouched-key and override-wins clauses applied to
the defaults and `c5Override` at concrete keys. -/
theorem claim_C5_witness :
    dictGet c5Override "model" = none
    ∧ dictGet (Config._merge_configs Config._get_default_config c5Override) "model"
      = dictGet Config._get_default_config "model"
    ∧ (c5Override.map Prod.fst).Nodup
    ∧ dictGet c5Override "app" = some (Value.dict [("name", Value.str "Custom App")])
    ∧ dictGet (Config._merge_configs Config._get_default_config c5Override) "app"
      = some (Value.dict (Config._merge_configs
          [ ("name", Value.str "English Accent Classifier"),
            ("version", Value.str "1.0.0"),
            ("description", Value.str "A tool for identifying English accents from YouTube videos") ]
          [("name", Value.str "Custom App")])) :=
  ⟨by decide,
   (claim_C5 Config._get_default_config c5Override "model" Value.null).1 (by decide),
   by decide, by decide,
   (claim_C5 Config._get_default_config c5Override "app"
     (Value.dict [("name", Value.str "Custom App")])).2.1 (by decide) (by decide)⟩

/-- C6.  `set` followed by `get` on the same dot-separated key path returns
exactly the value that was set, for every configuration state — key paths
already present and newly introduced ones alike (`set` materializes
missing or non-dict intermediates as fresh dicts, and `get` then walks the
same path). -/
theorem claim_C6 (cfg : List (String × Value)) (key : String) (v default : Value) :
    Config.get (Config.set cfg key v) key default = v := by
  unfold Config.get Config.set
  rw [Config.getPath_setPath (pySplit key '.') cfg v (pySplit_ne_nil key '.')]

/-- C7.  Whenever the dotted-path walk of `get` fails — a missing
intermediate or leaf key, or a non-dict intermediate value — `get` returns
the caller-supplied default (the walk's `KeyError`/`TypeError` is caught,
never propagated); concretely `get("nonexistent.key", "default")` on the
defaults returns `"default"`, and `get("model.path")` with no override
returns the built-in default model identifier. -/
theorem claim_C7 :
    (∀ (cfg : List (String × Value)) (key : String) (default : Value),
      Config.getPath (Value.dict cfg) (pySplit key '.') = none →
      Config.get cfg key default = default)
    ∧ Config.get Config._get_default_config "nonexistent.key" (Value.str "default")
      = Value.str "default"
    ∧ Config.get Config._get_default_config "model.path" Value.null
      = Value.str "Jzuluaga/accent-id-commonaccent_ecapa" := by
  refine ⟨?_, by decide, by decide⟩
  intro cfg key default h
  unfold Config.get
  rw [h]

/-- Witness for C7: the failing-lookup clause applied to the defaults at a
missing key. -/
theorem claim_C7_witness :
    Config.getPath (Value.dict Config._get_default_config) (pySplit "nonexistent.key" '.') = none
    ∧ Config.get Config._get_default_config "nonexistent.key" (Value.str "default")
      = Value.str "default" :=
  ⟨by decide,
   claim_C7.1 Config._get_default_config "nonexistent.key" (Value.str "default") (by decide)⟩

/-- C8.  For every submission whose stripped URL is non-empty, the trigger
handler returns normally (the embedding is a total function: no pipeline
exception propagates), always leaves the Processing state — the final
widget state has the inputs re-enabled — and for every exception surfaced
by audio acquisition or by classification it shows the error's message in
a dialog and sets a failure status with the failure color. -/
theorem claim_C8 (s : GUIState) (url : String)
    (dl : String → Except PyExc String) (cls : String → Except PyExc (String × String))
    (hurl : pyStrip url ≠ "") :
    (_process_video s url dl cls).1.processing = false
    ∧ (∀ e, dl (pyStrip url) = .error e →
        Event.showErrorDialog (dialogMessage e) ∈ (_process_video s url dl cls).2
        ∧ (_process_video s url dl cls).1.statusColor = "#F44336"
        ∧ ((_process_video s url dl cls).1.status = "Processing failed"
            ∨ (_process_video s url dl cls).1.status = "Unexpected error"))
    ∧ (∀ wav e, dl (pyStrip url) = .ok wav → cls wav = .error e →
        Event.showErrorDialog (dialogMessage e) ∈ (_process_video s url dl cls).2
        ∧ (_process_video s url dl cls).1.statusColor = "#F44336"
        ∧ ((_process_video s url dl cls).1.status = "Processing failed"
            ∨ (_process_video s url dl cls).1.status = "Unexpected error")) := by
  unfold _process_video
  rw [if_neg hurl]
  refine ⟨?_, ?_, ?_⟩
  · rcases hdl : dl (pyStrip url) with e | wav
    · rfl
    · rcases hcls : cls wav with e | rb
      · simp [hcls, _set_processing_state]
      · obtain ⟨r, b⟩ := rb
        simp [hcls, _set_processing_state]
  · intro e he
    simp only [he]
    cases e with
    | app err => simp [handlePipelineError, dialogMessage, _set_processing_state]
    | other m => simp [handlePipelineError, dialogMessage, _set_processing_state]
  · intro wav e hdl hcls
    simp only [hdl, hcls]
    cases e with
    | app err => simp [handlePipelineError, dialogMessage, _set_processing_state]
    | other m => simp [handlePipelineError, dialogMessage, _set_processing_state]

/-- The widget state before a submission: Idle, ready status, empty
results. -/
def idleState : GUIState :=
  { processing := false, status := "Ready to analyze accents...",
    statusColor := "#666666", resultText := "" }

/-- An audio-acquisition oracle that always raises the wrapped
processing-failure error. -/
def dlFail : String → Except PyExc String :=
  fun _ => .error (.app (.AudioProcessingError "Audio processing failed: boom"))

/-- A classification oracle that always succeeds. -/
def clsTrivial : String → Except PyExc (String × String) :=
  fun _ => .ok ("report", "american")

/-- Witness for C8: a failing download on a non-empty URL shows the error
message and ends with the inputs re-enabled. -/
theorem claim_C8_witness :
    pyStrip "https://youtu.be/x" ≠ ""
    ∧ (_process_video idleState "https://youtu.be/x" dlFail clsTrivial).1.processing = false
    ∧ Event.showErrorDialog "Audio processing failed: boom"
        ∈ (_process_video idleState "https://youtu.be/x" dlFail clsTrivial).2 :=
  ⟨by decide,
   (claim_C8 idleState "https://youtu.be/x" dlFail clsTrivial (by decide)).1,
   ((claim_C8 idleState "https://youtu.be/x" dlFail clsTrivial (by decide)).2.1
     (PyExc.app (AccentClassifierError.AudioProcessingError "Audio processing failed: boom"))
     rfl).1⟩

/-- C9.  Submitting an empty URL makes the trigger handler show the
validation error and return immediately: the widget state is returned
unchanged (still Idle), the Processing state is never entered, and neither
the audio-acquisition nor the classification collaborator is invoked (the
event trace is exactly the one error dialog, and the outcome does not
depend on the collaborators at all). -/
theorem claim_C9 (s : GUIState) (dl : String → Except PyExc String)
    (cls : String → Except PyExc (String × String)) :
    _process_video s "" dl cls = (s, [Event.showErrorDialog "Please enter a YouTube URL."])
    ∧ (_process_video s "" dl cls).1 = s
    ∧ (∀ u, Event.invokeDownload u ∉ (_process_video s "" dl cls).2)
    ∧ (∀ p, Event.invokeClassify p ∉ (_process_video s "" dl cls).2)
    ∧ Event.setProcessing true ∉ (_process_video s "" dl cls).2 := by
  have h : _process_video s "" dl cls
      = (s, [Event.showErrorDialog "Please enter a YouTube URL."]) := rfl
  refine ⟨h, by rw [h], ?_, ?_, ?_⟩ <;> rw [h] <;> simp

/-- C10.  A URL consisting only of whitespace characters is stripped to the
empty string before the emptiness check, so it is handled exactly like the
empty URL: validation error shown, state unchanged in Idle, Processing
never entered, no collaborator invoked. -/
theorem claim_C10 (s : GUIState) (url : String)
    (dl : String → Except PyExc String) (cls : String → Except PyExc (String × String))
    (hws : ∀ c ∈ url.data, isPySpace c = true) :
    _process_video s url dl cls = (s, [Event.showErrorDialog "Please enter a YouTube URL."])
    ∧ (_process_video s url dl cls).1 = s
    ∧ (∀ u, Event.invokeDownload u ∉ (_process_video s url dl cls).2)
    ∧ (∀ p, Event.invokeClassify p ∉ (_process_video s url dl cls).2)
    ∧ Event.setProcessing true ∉ (_process_video s url dl cls).2 := by
  have hs : pyStrip url = "" := pyStrip_all_space url hws
  have h : _process_video s url dl cls
      = (s, [Event.showErrorDialog "Please enter a YouTube URL."]) := by
    unfold _process_video
    rw [hs]
    rfl
  refine ⟨h, by rw [h], ?_, ?_, ?_⟩ <;> rw [h] <;> simp

/-- Witness for C10 on a concrete whitespace-only submission. -/
theorem claim_C10_witness :
    (∀ c ∈ ("  \t ").data, isPySpace c = true)
    ∧ _process_video idleState "  \t " dlFail clsTrivial
      = (idleState, [Event.showErrorDialog "Please enter a YouTube URL."]) :=
  ⟨by decide, (claim_C10 idleState "  \t " dlFail clsTrivial (by decide)).1⟩

end AccentApp
